import Mathlib

/-!
Verification of `src/createAuthScheme.js` (serverless-offline custom
TOKEN-authorizer scheme).

The JavaScript values that flow through the completion callback are embedded
as the inductive type `JSVal`.  The completion callback installed by
`createAuthScheme` (source lines 77-148) is embedded as `completionResponse`;
its inner `onSuccess` (lines 88-134) and `onError` (lines 79-86) keep their
source names.  A JavaScript exception escaping the callback (an uncaught
`TypeError`) is modelled by the `Except.error` branch; a call of the Hapi
`reply` continuation is modelled by `Except.ok` carrying a `Response`.
-/

/-- Embedding of the JavaScript values relevant to the authorizer flow.
`obj` carries the own enumerable properties in insertion order (keys assumed
distinct, as produced by object literals); `err` is an `Error` instance
(whose `message` is its only own property, non-enumerable); `promise` is a
value exposing callable `then` and `catch` properties, carried together with
its eventual settlement (resolution or rejection). -/
inductive JSVal where
  | undefined
  | null
  | bool (b : Bool)
  | num (n : Int)
  | str (s : String)
  | obj (fields : List (String × JSVal))
  | err (message : String)
  | promise (settled : Except JSVal JSVal)

/-- JavaScript truthiness of an embedded value (`if (v)`). -/
def truthy : JSVal → Bool
  | .undefined => false
  | .null => false
  | .bool b => b
  | .num n => n != 0
  | .str s => s != ""
  | .obj _ => true
  | .err _ => true
  | .promise _ => true

/-- JavaScript `typeof v` for an embedded value. -/
def typeOf : JSVal → String
  | .undefined => "undefined"
  | .null => "object"
  | .bool _ => "boolean"
  | .num _ => "number"
  | .str _ => "string"
  | .obj _ => "object"
  | .err _ => "object"
  | .promise _ => "object"

/-- JavaScript property read `v[k]`: throws a `TypeError` on `null` and
`undefined`, yields the own property or `undefined` otherwise (primitives are
boxed and have no own data properties of interest here; an `Error` instance
has its `message`). -/
def getProp : JSVal → String → Except String JSVal
  | .undefined, k =>
      Except.error ("TypeError: Cannot read properties of undefined (reading " ++ k ++ ")")
  | .null, k =>
      Except.error ("TypeError: Cannot read properties of null (reading " ++ k ++ ")")
  | .obj fs, k =>
      Except.ok (match fs.find? (fun kv => kv.1 == k) with
        | some kv => kv.2
        | none => .undefined)
  | .err m, k => Except.ok (if k == "message" then .str m else .undefined)
  | _, _ => Except.ok .undefined

/-- Own enumerable properties as visited by `for (const key in v)` (all of
them own here, so the `hasOwnProperty` filter of source lines 114-116 keeps
every visited key): object fields in order, string indices for strings,
nothing for other values. -/
def ownEnumerable : JSVal → List (String × JSVal)
  | .obj fs => fs
  | .str s => s.data.enum.map (fun p => (toString p.1, JSVal.str (String.singleton p.2)))
  | _ => []

/-- JSON escaping of one character, as performed by `JSON.stringify` on the
characters occurring in this development (quote, backslash, common control
characters; all other characters are emitted verbatim). -/
def escChar (c : Char) : List Char :=
  if c = '"' then ['\\', '"']
  else if c = '\\' then ['\\', '\\']
  else if c = '\n' then ['\\', 'n']
  else if c = '\r' then ['\\', 'r']
  else if c = '\t' then ['\\', 't']
  else [c]

/-- JSON escaping of a character list. -/
def escData : List Char → List Char
  | [] => []
  | c :: cs => escChar c ++ escData cs

/-- `JSON.stringify` of a string: surrounding quotes plus escaped body. -/
def jsonEscape (s : String) : String :=
  String.mk ('"' :: (escData s.data ++ ['"']))

/-- Comma-separated join of the field fragments (the separators
`JSON.stringify` places between emitted fields). -/
def joinComma : List String → String
  | [] => ""
  | [x] => x
  | x :: xs => x ++ "," ++ joinComma xs

mutual

/-- `JSON.stringify` of an embedded value.  `none` models the JavaScript
result `undefined` (top-level `undefined`); `Error` and `Promise` instances
serialize to `\x7b\x7d` (no own enumerable properties). -/
def jsonStringify : JSVal → Option String
  | .undefined => none
  | .null => some "null"
  | .bool b => some (if b then "true" else "false")
  | .num n => some (toString n)
  | .str s => some (jsonEscape s)
  | .obj fs => some ("\x7b" ++ joinComma (jsonFieldStrings fs) ++ "\x7d")
  | .err _ => some "\x7b\x7d"
  | .promise _ => some "\x7b\x7d"

/-- The `"key":value` fragments of an object's JSON serialization, in key
order, skipping fields whose value serializes to `undefined`. -/
def jsonFieldStrings : List (String × JSVal) → List String
  | [] => []
  | (k, v) :: rest =>
      match jsonStringify v with
      | none => jsonFieldStrings rest
      | some sv => (jsonEscape k ++ ":" ++ sv) :: jsonFieldStrings rest

end

/-- `startsWith pat l`: `pat` is a prefix of `l`. -/
def startsWith : List Char → List Char → Bool
  | [], _ => true
  | _ :: _, [] => false
  | p :: ps, c :: cs => p == c && startsWith ps cs

/-- First index at which `pat` occurs in `l` (`String.prototype.indexOf`,
with `none` for the JavaScript result `-1`). -/
def findSub : List Char → List Char → Option Nat
  | l, pat =>
      if startsWith pat l then some 0
      else
        match l with
        | [] => none
        | _ :: cs => (findSub cs pat).map (· + 1)

/-- `s.indexOf(pat)` on embedded strings. -/
def indexOfSubstr (s pat : String) : Option Nat :=
  findSub s.data pat.data

/-- The two-character sequence backslash, double-quote searched for at source
line 92 (`jsonPolicy.indexOf('\\"')`). -/
def escSeq : String := "\\\""

/-- Context values admitted by source line 118
(`const allowedTypes = ['number', 'string', 'boolean']`). -/
def allowedTypes : List String := ["number", "string", "boolean"]

/-- The `for (const key in policy.context)` loop of source lines 113-126:
the `typeof` of the first context value outside `allowedTypes`, if any
(the loop replies and returns at the first violation). -/
def firstBadContext (ctx : JSVal) : Option String :=
  (ownEnumerable ctx).findSome? (fun kv =>
    if allowedTypes.contains (typeOf kv.2) then none else some (typeOf kv.2))

/-- Credentials carried by `reply.continue({ credentials: ... })`:
`user` is `policy.principalId`, `context` is `policy.context` when the
latter is truthy (source lines 110, 129-130). -/
structure Credentials where
  user : JSVal
  context : Option JSVal

/-- The replies `createAuthScheme` can send for one request: Hapi
`reply.continue` (success), `Boom.unauthorized` (401), `Boom.forbidden`
(403) and `Boom.badImplementation` (500). -/
inductive Response where
  | continueWith (credentials : Credentials)
  | unauthorized (msg : String)
  | forbidden (msg : String)
  | badImplementation (msg : String)

/-- `onError` of source lines 79-83: logs and replies
`Boom.unauthorized('Unauthorized')` whatever the error value is. -/
def onErrorResponse : Response := Response.unauthorized "Unauthorized"

/-- `onSuccess` of source lines 88-134, line by line: serialize the policy,
reject on an embedded backslash-quote sequence, then check `principalId`
(falsy, then non-string), then the context-value types, and otherwise
`reply.continue` with the credentials.  `Except.error` models a thrown
`TypeError` (serialization of `undefined` yields `undefined`, whose
`indexOf` throws; property reads on `null`/`undefined` throw). -/
def onSuccess (policy : JSVal) : Except String Response :=
  match jsonStringify policy with
  | none =>
      Except.error "TypeError: Cannot read properties of undefined (reading indexOf)"
  | some jsonPolicy =>
      match indexOfSubstr jsonPolicy escSeq with
      | some invalidSymbolPosition =>
          Except.ok (Response.badImplementation
            ("Invalid auth data at position " ++ toString invalidSymbolPosition ++
             ". Data: " ++ jsonPolicy))
      | none =>
          match getProp policy "principalId" with
          | Except.error e => Except.error e
          | Except.ok principalId =>
              if truthy principalId = false then
                Except.ok (Response.forbidden "No principalId set on the Response")
              else if typeOf principalId != "string" then
                Except.ok (Response.badImplementation "principalId is not a string")
              else
                match getProp policy "context" with
                | Except.error e => Except.error e
                | Except.ok ctx =>
                    if truthy ctx then
                      match firstBadContext ctx with
                      | some _ =>
                          Except.ok (Response.badImplementation
                            "Not allowed context key ${keyType}")
                      | none =>
                          Except.ok (Response.continueWith
                            { user := principalId, context := some ctx })
                    else
                      Except.ok (Response.continueWith
                        { user := principalId, context := none })

/-- `result.then(onSuccess).catch(onError)` of source line 139: a rejection,
or an exception thrown inside `onSuccess`, is caught by the chained `catch`
and replied as unauthorized. -/
def thenCatch (settled : Except JSVal JSVal) : Response :=
  match settled with
  | Except.error _ => onErrorResponse
  | Except.ok v =>
      match onSuccess v with
      | Except.ok r => r
      | Except.error _ => onErrorResponse

/-- The completion callback handed to the invocation context (source lines
77-148): `if (err) return onError(err)`, then the three-way classification
of `result` — duck-typed promise (truthy with callable `then` and `catch`),
`instanceof Error`, or plain value passed to `onSuccess`. -/
def completionResponse (err result : JSVal) : Except String Response :=
  if truthy err then Except.ok onErrorResponse
  else
    match result with
    | .promise settled => Except.ok (thenCatch settled)
    | .err _ => Except.ok onErrorResponse
    | _ => onSuccess result

/-- Modelled from the spec: `createLambdaContext` (file
`src/createLambdaContext.js`, not present under `src/`) supplies the
invocation context whose `done` callback `(error, result) -> void` forwards
each call to the completion callback unchanged; it imposes no
first-call-wins guard of its own. -/
def lambdaContextDone (err result : JSVal) : Except String Response :=
  completionResponse err result

/-- The replies produced when the user function invokes the completion
callback once per element of `completions`: the callback closure holds no
settled-flag, so every invocation runs the full classification and calls
`reply` again. -/
def repliesForCompletions (completions : List (JSVal × JSVal)) :
    List (Except String Response) :=
  completions.map (fun c => lambdaContextDone c.1 c.2)

/-- `String.prototype.toLowerCase` on the strings occurring here (ASCII
header names and regex captures): character-wise basic-latin lowering. -/
def toLowerStr (s : String) : String :=
  String.mk (s.data.map Char.toLower)

/-- A word character of the JavaScript regex class backslash-w:
`[A-Za-z0-9_]`. -/
def isWordChar (c : Char) : Bool :=
  c.isAlphanum || c == '_'

/-- A character matched by an (unescaped) regex dot: any character except
the four line terminators. -/
def regexDot (c : Char) : Bool :=
  c != '\n' && c != '\r' && c.val != 0x2028 && c.val != 0x2029

/-- Consume the literal characters `lit` from the front of `cs`. -/
def stripLit : List Char → List Char → Option (List Char)
  | [], cs => some cs
  | _ :: _, [] => none
  | l :: ls, c :: cs => if c == l then stripLit ls cs else none

/-- Consume one character matched by a regex dot. -/
def stripDot : List Char → Option (List Char)
  | [] => none
  | c :: cs => if regexDot c then some cs else none

/-- The capture of `/^method.request.header.(\w+)$/.exec(s)` (source line
31): the three dots are unescaped, so each matches an arbitrary
non-line-terminator character; the capture is the trailing run of word
characters, which must be non-empty and reach the end of the string. -/
def identitySourceCapture (s : String) : Option String := do
  let cs ← stripLit "method".data s.data
  let cs ← stripDot cs
  let cs ← stripLit "request".data cs
  let cs ← stripDot cs
  let cs ← stripLit "header".data cs
  let cs ← stripDot cs
  if cs ≠ [] ∧ cs.all isWordChar then some (String.mk cs) else none

/-- The exact dotted grammar named by the specification,
`method.request.header.<name>` with literal dot separators and `<name>` a
single word token; stated from the spec's words for comparison with
`identitySourceCapture`. -/
def exactGrammarCapture (s : String) : Option String := do
  let cs ← stripLit "method.request.header.".data s.data
  if cs ≠ [] ∧ cs.all isWordChar then some (String.mk cs) else none

/-- The authorizer fields read at construction time (source lines 26-36). -/
structure AuthorizerOptions where
  ty : String
  identitySource : String

/-- The construction-time validation of `createAuthScheme` (source lines
27-37): reject a non-TOKEN authorizer type, then parse the identity source
with the regex above; on success the configured identity header is the
lower-cased capture. -/
def buildIdentityHeader (authFunName : String) (ao : AuthorizerOptions) :
    Except String String :=
  if ao.ty != "TOKEN" then
    Except.error ("Authorizer Type must be TOKEN (λ: " ++ authFunName ++ ")")
  else
    match identitySourceCapture ao.identitySource with
    | none =>
        Except.error
          ("Serverless Offline only supports retrieving tokens from the headers (λ: " ++
           authFunName ++ ")")
    | some capture => Except.ok (toLowerStr capture)

/-- The synthetic authorization event (source lines 56-60). -/
structure AuthEvent where
  type : String
  authorizationToken : JSVal
  methodArn : String

/-- `req.headers[identityHeader]` (source line 49): Node lower-cases
incoming raw header names in `req.headers`, so the lookup compares each raw
name lower-cased against the (already lower-cased) configured identity
header; a missing header reads as `undefined`. -/
def headerLookup (headers : List (String × String)) (identityHeader : String) : JSVal :=
  match headers.find? (fun p => toLowerStr p.1 == identityHeader) with
  | some p => JSVal.str p.2
  | none => JSVal.undefined

/-- The event object built per request (source lines 56-60), with the
literal account and API placeholders of the source template string. -/
def buildEvent (region stage funName endpointPath : String)
    (headers : List (String × String)) (identityHeader : String) : AuthEvent :=
  { type := "TOKEN"
    authorizationToken := headerLookup headers identityHeader
    methodArn := "arn:aws:execute-api:" ++ region ++ ":<Account id>:<API id>/" ++
      stage ++ "/" ++ funName ++ "/" ++ endpointPath }

/-- The policy `{ principalId: "u" }`. -/
def polU : JSVal := JSVal.obj [("principalId", JSVal.str "u")]

/-- The policy `{ principalId: "user1" }`. -/
def polUser1 : JSVal := JSVal.obj [("principalId", JSVal.str "user1")]

/-- The policy `{ principalId: 42 }` (non-string principal). -/
def pol42 : JSVal := JSVal.obj [("principalId", JSVal.num 42)]

/-- The empty policy `{}` (no principalId). -/
def polEmpty : JSVal := JSVal.obj []

/-- The policy `{ principalId: "u", context: { bad: {} } }` (object-typed
context value). -/
def polBadCtx : JSVal :=
  JSVal.obj [("principalId", JSVal.str "u"),
             ("context", JSVal.obj [("bad", JSVal.obj [])])]

/-- The policy whose principalId contains a literal double quote. -/
def polQuote : JSVal := JSVal.obj [("principalId", JSVal.str "a\"b")]

/-- The flat policy shape of the escaped-quote analysis: a string
principalId together with a context object. -/
def polWith (pid : String) (ctx : List (String × JSVal)) : JSVal :=
  JSVal.obj [("principalId", JSVal.str pid), ("context", JSVal.obj ctx)]

/-- `p` occurs as a contiguous substring of `l`. -/
def SubL (p l : List Char) : Prop := ∃ a b, l = a ++ (p ++ b)

theorem string_data_append (s t : String) : (s ++ t).data = s.data ++ t.data := by
  cases s; cases t; rfl

theorem subL_appendLeft {p x : List Char} (y : List Char) (h : SubL p x) :
    SubL p (x ++ y) := by
  obtain ⟨a, b, rfl⟩ := h
  exact ⟨a, b ++ y, by simp⟩

theorem subL_appendRight {p y : List Char} (x : List Char) (h : SubL p y) :
    SubL p (x ++ y) := by
  obtain ⟨a, b, rfl⟩ := h
  exact ⟨x ++ a, b, by simp⟩

theorem subL_cons {p x : List Char} (c : Char) (h : SubL p x) : SubL p (c :: x) :=
  subL_appendRight [c] h

theorem startsWith_self_append (p t : List Char) : startsWith p (p ++ t) = true := by
  induction p with
  | nil => rfl
  | cons c cs ih => simp [startsWith, ih]

theorem findSub_isSome_of_subL {p l : List Char} (h : SubL p l) :
    (findSub l p).isSome = true := by
  obtain ⟨a, b, rfl⟩ := h
  induction a with
  | nil =>
      unfold findSub
      rw [List.nil_append, startsWith_self_append]
      rfl
  | cons c a ih =>
      rw [List.cons_append]
      unfold findSub
      split
      · rfl
      · simpa using ih

theorem escSeq_data : escSeq.data = ['\\', '"'] := rfl

theorem escSeq_subL_escData {cs : List Char} (h : '"' ∈ cs) :
    SubL escSeq.data (escData cs) := by
  induction cs with
  | nil => cases h
  | cons c cs ih =>
      by_cases hc : c = '"'
      · subst hc
        exact ⟨[], escData cs, by simp [escData, escChar, escSeq_data]⟩
      · have hm : '"' ∈ cs := by
          rcases List.mem_cons.mp h with h1 | h1
          · exact absurd h1.symm hc
          · exact h1
        have : SubL escSeq.data (escChar c ++ escData cs) :=
          subL_appendRight (escChar c) (ih hm)
        simpa [escData] using this

theorem escSeq_subL_jsonEscape {s : String} (h : '"' ∈ s.data) :
    SubL escSeq.data (jsonEscape s).data := by
  have h1 := subL_cons '"' (subL_appendLeft ['"'] (escSeq_subL_escData h))
  exact h1

theorem subL_joinComma_head (p : List Char) (x : String) (xs : List String)
    (h : SubL p x.data) : SubL p (joinComma (x :: xs)).data := by
  cases xs with
  | nil => exact h
  | cons y ys =>
      have he : joinComma (x :: y :: ys) = (x ++ ",") ++ joinComma (y :: ys) := rfl
      rw [he, string_data_append, string_data_append]
      exact subL_appendLeft _ (subL_appendLeft _ h)

theorem subL_joinComma_tail (p : List Char) (x : String) (xs : List String)
    (h : SubL p (joinComma xs).data) : SubL p (joinComma (x :: xs)).data := by
  cases xs with
  | nil =>
      obtain ⟨a, b, hab⟩ := h
      have hnil : a ++ (p ++ b) = [] := hab.symm
      have hp : p = [] := by
        rcases List.append_eq_nil.mp hnil with ⟨-, h2⟩
        exact (List.append_eq_nil.mp h2).1
      exact ⟨[], (joinComma [x]).data, by simp [hp]⟩
  | cons y ys =>
      have he : joinComma (x :: y :: ys) = (x ++ ",") ++ joinComma (y :: ys) := rfl
      rw [he, string_data_append]
      exact subL_appendRight _ h

theorem subL_jsonFields_of_mem (p : List Char) (fs : List (String × JSVal))
    (k : String) (v : JSVal) (sv : String) (hmem : (k, v) ∈ fs)
    (hsv : jsonStringify v = some sv) (hsub : SubL p sv.data) :
    SubL p (joinComma (jsonFieldStrings fs)).data := by
  induction fs with
  | nil => cases hmem
  | cons kv rest ih =>
      obtain ⟨k1, v1⟩ := kv
      rcases List.mem_cons.mp hmem with heq | hmem1
      · have hk : k1 = k := (Prod.mk.injEq _ _ _ _ ▸ heq.symm).1
        have hv : v1 = v := (Prod.mk.injEq _ _ _ _ ▸ heq.symm).2
        subst hk; subst hv
        have he : jsonFieldStrings ((k1, v1) :: rest) =
            ((jsonEscape k1 ++ ":") ++ sv) :: jsonFieldStrings rest := by
          simp [jsonFieldStrings, hsv]
        rw [he]
        apply subL_joinComma_head
        rw [string_data_append]
        exact subL_appendRight _ hsub
      · rcases hv1 : jsonStringify v1 with _ | sv1
        · have he : jsonFieldStrings ((k1, v1) :: rest) = jsonFieldStrings rest := by
            simp [jsonFieldStrings, hv1]
          rw [he]
          exact ih hmem1
        · have he : jsonFieldStrings ((k1, v1) :: rest) =
              ((jsonEscape k1 ++ ":") ++ sv1) :: jsonFieldStrings rest := by
            simp [jsonFieldStrings, hv1]
          rw [he]
          exact subL_joinComma_tail _ _ _ (ih hmem1)

/-- Claim C1 (code bug): the spec promises that a completion with no error
and a result that is neither promise-like nor Error-like — explicitly
including `null` and `undefined` — is classified as `Value`, validated as
the policy, and resolved to exactly one response with no uncaught fault.
The code does classify `null`/`undefined` as `Value`, but validation then
throws an uncaught `TypeError` (for `null`, reading `principalId` of `null`
at source line 100; for `undefined`, `JSON.stringify` yields `undefined`
and the `indexOf` call at line 92 throws), so no response is produced. -/
theorem valueBranch_throws_on_null_and_undefined :
    completionResponse JSVal.null JSVal.null =
      Except.error "TypeError: Cannot read properties of null (reading principalId)" ∧
    completionResponse JSVal.null JSVal.undefined =
      Except.error "TypeError: Cannot read properties of undefined (reading indexOf)" :=
  ⟨rfl, rfl⟩

/-- Claim C2 (code bug): for the policy
`{ principalId: "u", context: { bad: {} } }` the code does reply with an
internal-error response after stopping at the first offending context value,
but the reply message is the literal source text `Not allowed context key
${keyType}` — source line 123 uses an ordinary single-quoted string, not a
template literal — so the message never names the runtime type (the word
`object` does not occur in it), contrary to the claim. -/
theorem contextType_reply_is_uninterpolated_literal :
    onSuccess polBadCtx =
      Except.ok (Response.badImplementation "Not allowed context key ${keyType}") ∧
    indexOfSubstr "Not allowed context key ${keyType}" "object" = none :=
  ⟨rfl, rfl⟩

/-- Claim C3 (counterexample): the identity-source string
`methodXrequestYheaderZauth` is not of the exact dotted grammar
`method.request.header.<name>`, yet construction succeeds (the regex dots
at source line 31 are unescaped and match the arbitrary separators
`X`, `Y`, `Z`), refuting "construction succeeds only for strings of that
exact shape". -/
theorem identitySource_counterexample :
    exactGrammarCapture "methodXrequestYheaderZauth" = none ∧
    buildIdentityHeader "f" { ty := "TOKEN", identitySource := "methodXrequestYheaderZauth" } =
      Except.ok "auth" :=
  ⟨rfl, rfl⟩

/-- Claim C3 (amended): for a TOKEN authorizer, construction succeeds
exactly for identity-source strings matching
`^method.request.header.(\w+)$` with each (unescaped) dot matching an
arbitrary non-line-terminator character, yielding the lower-cased capture
as the identity header; every other string fails with the
unsupported-identity-source error naming the function. -/
theorem identitySource_amended (fn src : String) :
    (identitySourceCapture src = none →
      buildIdentityHeader fn { ty := "TOKEN", identitySource := src } =
        Except.error
          ("Serverless Offline only supports retrieving tokens from the headers (λ: " ++
           fn ++ ")")) ∧
    (∀ capture, identitySourceCapture src = some capture →
      buildIdentityHeader fn { ty := "TOKEN", identitySource := src } =
        Except.ok (toLowerStr capture)) := by
  constructor
  · intro h
    simp [buildIdentityHeader, h]
  · intro capture h
    simp [buildIdentityHeader, h]

/-- Witness for the amended claim C3 at concrete identity sources: a
query-string source is rejected with the error naming the function, and the
canonical header source is accepted with the lower-cased header name. -/
theorem identitySource_amended_witness :
    buildIdentityHeader "f" { ty := "TOKEN", identitySource := "method.request.querystring.auth" } =
      Except.error
        ("Serverless Offline only supports retrieving tokens from the headers (λ: " ++
         "f" ++ ")") ∧
    buildIdentityHeader "f" { ty := "TOKEN", identitySource := "method.request.header.Auth" } =
      Except.ok "auth" :=
  ⟨(identitySource_amended "f" "method.request.querystring.auth").1 rfl,
   (identitySource_amended "f" "method.request.header.Auth").2 "Auth" rfl⟩

/-- Claim C4 (code bug): the completion callback installed at source lines
77-148 holds no settled flag, so when a misbehaving user function invokes
completion twice with `(null, { principalId: "u" })`, both invocations run
the full classification and each calls `reply` — two responses are
produced, not one. -/
theorem double_completion_produces_two_replies :
    repliesForCompletions [(JSVal.null, polU), (JSVal.null, polU)] =
      [Except.ok (Response.continueWith { user := JSVal.str "u", context := none }),
       Except.ok (Response.continueWith { user := JSVal.str "u", context := none })] ∧
    (repliesForCompletions [(JSVal.null, polU), (JSVal.null, polU)]).length = 2 :=
  ⟨rfl, rfl⟩

/-- Claim C5 (counterexample): the error-argument check at source line 84 is
`if (err)`, a truthiness test, not a non-null test: for the completion
`(false, { principalId: "u" })` the error argument is set and non-null, yet
the response is `reply.continue`, not unauthorized. -/
theorem falsy_error_argument_counterexample :
    (JSVal.bool false ≠ JSVal.null) ∧
    completionResponse (JSVal.bool false) polU =
      Except.ok (Response.continueWith { user := JSVal.str "u", context := none }) ∧
    (Response.continueWith { user := JSVal.str "u", context := none } ≠
      Response.unauthorized "Unauthorized") :=
  ⟨fun h => JSVal.noConfusion h, rfl, fun h => Response.noConfusion h⟩

/-- Claim C5 (amended): for every completion whose error argument is truthy,
the response is the unauthorized response with the generic message
`Unauthorized`, regardless of the simultaneously-passed result value. -/
theorem onError_on_truthy_error (err result : JSVal) (h : truthy err = true) :
    completionResponse err result = Except.ok (Response.unauthorized "Unauthorized") := by
  simp [completionResponse, h, onErrorResponse]

/-- Witness for the amended claim C5: an `Error`-valued error argument is
truthy and yields the unauthorized response even though a valid policy is
passed as the result. -/
theorem onError_on_truthy_error_witness :
    truthy (JSVal.err "boom") = true ∧
    completionResponse (JSVal.err "boom") polU =
      Except.ok (Response.unauthorized "Unauthorized") :=
  ⟨rfl, onError_on_truthy_error (JSVal.err "boom") polU rfl⟩

/-- Claim C6: when the raw headers contain the configured identity header
(matched after Node's lower-casing of raw header names), the synthesized
event is `TOKEN`-typed, carries the header value exactly as the
authorization token, and its methodArn is the deterministic template
`arn:aws:execute-api:<region>:<Account id>:<API id>/<stage>/<funName>/<endpointPath>`
containing stage, function name and endpoint path verbatim; when the header
is absent, the token is `undefined` and the event is still built. -/
theorem event_synthesis (region stage funName endpointPath identityHeader n v : String)
    (hs hs2 : List (String × String))
    (h1 : hs.find? (fun p => toLowerStr p.1 == identityHeader) = some (n, v))
    (h2 : hs2.find? (fun p => toLowerStr p.1 == identityHeader) = none) :
    (buildEvent region stage funName endpointPath hs identityHeader).type = "TOKEN" ∧
    (buildEvent region stage funName endpointPath hs identityHeader).authorizationToken =
      JSVal.str v ∧
    (buildEvent region stage funName endpointPath hs identityHeader).methodArn =
      "arn:aws:execute-api:" ++ region ++ ":<Account id>:<API id>/" ++ stage ++ "/" ++
        funName ++ "/" ++ endpointPath ∧
    (buildEvent region stage funName endpointPath hs2 identityHeader).authorizationToken =
      JSVal.undefined := by
  refine ⟨rfl, ?_, rfl, ?_⟩
  · simp [buildEvent, headerLookup, h1]
  · simp [buildEvent, headerLookup, h2]

/-- Witness for claim C6: request headers `Authorization: abc123` with
identity header `authorization` yield the token `abc123` and the concrete
methodArn; an empty header list yields an `undefined` token. -/
theorem event_synthesis_witness :
    (buildEvent "us-east-1" "dev" "fn" "path" [("Authorization", "abc123")] "authorization").type =
      "TOKEN" ∧
    (buildEvent "us-east-1" "dev" "fn" "path" [("Authorization", "abc123")] "authorization").authorizationToken =
      JSVal.str "abc123" ∧
    (buildEvent "us-east-1" "dev" "fn" "path" [("Authorization", "abc123")] "authorization").methodArn =
      "arn:aws:execute-api:" ++ "us-east-1" ++ ":<Account id>:<API id>/" ++ "dev" ++ "/" ++
        "fn" ++ "/" ++ "path" ∧
    (buildEvent "us-east-1" "dev" "fn" "path" [] "authorization").authorizationToken =
      JSVal.undefined :=
  event_synthesis "us-east-1" "dev" "fn" "path" "authorization" "Authorization" "abc123"
    [("Authorization", "abc123")] [] rfl rfl

/-- Claim C7: for a policy passing the serialization guard, a falsy
`principalId` is replied as forbidden with `No principalId set on the
Response`, and a truthy but non-string `principalId` is replied as
internal-error with `principalId is not a string`; the falsy check fires
first (the first conjunct applies whatever the type of the falsy value). -/
theorem principalId_validation (policy pid : JSVal) (j : String)
    (hjson : jsonStringify policy = some j)
    (hesc : indexOfSubstr j escSeq = none)
    (hpid : getProp policy "principalId" = Except.ok pid) :
    (truthy pid = false →
      onSuccess policy = Except.ok (Response.forbidden "No principalId set on the Response")) ∧
    (truthy pid = true → typeOf pid ≠ "string" →
      onSuccess policy = Except.ok (Response.badImplementation "principalId is not a string")) := by
  constructor
  · intro ht
    simp [onSuccess, hjson, hesc, hpid, ht]
  · intro ht hty
    simp [onSuccess, hjson, hesc, hpid, ht, hty]

/-- Witness for claim C7: the empty policy `{}` is replied as forbidden, and
`{ principalId: 42 }` as the internal-error about a non-string principal. -/
theorem principalId_validation_witness :
    onSuccess polEmpty = Except.ok (Response.forbidden "No principalId set on the Response") ∧
    onSuccess pol42 = Except.ok (Response.badImplementation "principalId is not a string") :=
  ⟨(principalId_validation polEmpty JSVal.undefined "\x7b\x7d" rfl rfl rfl).1 rfl,
   (principalId_validation pol42 (JSVal.num 42) "\x7b\"principalId\":42\x7d" rfl rfl rfl).2
     rfl (by decide)⟩

/-- Claim C8: with no error argument, a result exposing `then` and `catch`
is classified as deferred and awaited through
`result.then(onSuccess).catch(onError)`; a resolution with
`{ principalId: "user1" }` is replied as continue with credentials whose
user is `user1` and no context, and any rejection is replied as
unauthorized. -/
theorem deferred_resolution (settled : Except JSVal JSVal) (e : JSVal) :
    completionResponse JSVal.null (JSVal.promise settled) = Except.ok (thenCatch settled) ∧
    completionResponse JSVal.null (JSVal.promise (Except.ok polUser1)) =
      Except.ok (Response.continueWith { user := JSVal.str "user1", context := none }) ∧
    completionResponse JSVal.null (JSVal.promise (Except.error e)) =
      Except.ok (Response.unauthorized "Unauthorized") :=
  ⟨rfl, rfl, rfl⟩

/-- Claim C9: whenever the serialized policy contains the two-character
backslash-quote sequence, the reply is the internal-error response carrying
the character position of the first occurrence and the serialized payload;
the statement quantifies over all such policies — in particular the
`principalId` checks are never reached. -/
theorem escapedQuote_guard (policy : JSVal) (j : String) (pos : Nat)
    (hjson : jsonStringify policy = some j)
    (hpos : indexOfSubstr j escSeq = some pos) :
    onSuccess policy = Except.ok (Response.badImplementation
      ("Invalid auth data at position " ++ toString pos ++ ". Data: " ++ j)) := by
  simp [onSuccess, hjson, hpos]

/-- Witness for claim C9: the policy whose principalId is `a"b` serializes
with an escaped quote at position 17 and is replied as internal-error. -/
theorem escapedQuote_guard_witness :
    onSuccess polQuote = Except.ok (Response.badImplementation
      ("Invalid auth data at position " ++ toString 17 ++ ". Data: " ++
       "\x7b\"principalId\":\"a\\\"b\"\x7d")) :=
  escapedQuote_guard polQuote "\x7b\"principalId\":\"a\\\"b\"\x7d" 17 rfl rfl

/-- Claim C10 (implicit): an otherwise fully valid policy — non-empty string
principalId, context values all of allowed scalar types — in which the
principalId or some string context value contains a literal double quote is
serialized with an escaped-quote sequence, so the guard replies
internal-error instead of continue: it rejects legitimate policies too. -/
theorem escapedQuote_guard_rejects_legitimate (pid : String) (ctx : List (String × JSVal))
    (_hpid : pid ≠ "")
    (_hscalar : ctx.all (fun kv => allowedTypes.contains (typeOf kv.2)) = true)
    (hquote : '"' ∈ pid.data ∨ ∃ k v, (k, JSVal.str v) ∈ ctx ∧ '"' ∈ v.data) :
    ∃ pos j, jsonStringify (polWith pid ctx) = some j ∧
      indexOfSubstr j escSeq = some pos ∧
      onSuccess (polWith pid ctx) = Except.ok (Response.badImplementation
        ("Invalid auth data at position " ++ toString pos ++ ". Data: " ++ j)) := by
  have hj : jsonStringify (polWith pid ctx) =
      some ("\x7b" ++
        joinComma (jsonFieldStrings
          [("principalId", JSVal.str pid), ("context", JSVal.obj ctx)]) ++ "\x7d") := rfl
  have hsub : SubL escSeq.data
      (joinComma (jsonFieldStrings
        [("principalId", JSVal.str pid), ("context", JSVal.obj ctx)])).data := by
    rcases hquote with hq | ⟨k, v, hmem, hq⟩
    · exact subL_jsonFields_of_mem escSeq.data _ "principalId" (JSVal.str pid)
        (jsonEscape pid) (List.mem_cons_self _ _) rfl (escSeq_subL_jsonEscape hq)
    · have hctx : SubL escSeq.data (joinComma (jsonFieldStrings ctx)).data :=
        subL_jsonFields_of_mem escSeq.data ctx k (JSVal.str v) (jsonEscape v)
          hmem rfl (escSeq_subL_jsonEscape hq)
      have hval : SubL escSeq.data
          (("\x7b" ++ joinComma (jsonFieldStrings ctx)) ++ "\x7d").data := by
        rw [string_data_append, string_data_append]
        exact subL_appendLeft _ (subL_appendRight _ hctx)
      exact subL_jsonFields_of_mem escSeq.data _ "context" (JSVal.obj ctx)
        ("\x7b" ++ joinComma (jsonFieldStrings ctx) ++ "\x7d")
        (List.mem_cons_of_mem _ (List.mem_cons_self _ _)) rfl hval
  have hfull : SubL escSeq.data
      ("\x7b" ++
        joinComma (jsonFieldStrings
          [("principalId", JSVal.str pid), ("context", JSVal.obj ctx)]) ++ "\x7d").data := by
    rw [string_data_append, string_data_append]
    exact subL_appendLeft _ (subL_appendRight _ hsub)
  have hsome := findSub_isSome_of_subL hfull
  rw [Option.isSome_iff_exists] at hsome
  obtain ⟨pos, hpos⟩ := hsome
  refine ⟨pos, _, hj, hpos, ?_⟩
  simp [onSuccess, hj, indexOfSubstr] at hpos ⊢
  simp [hpos]

/-- Witness for claim C10: the valid policy
`{ principalId: "a\"b", context: { role: "admin" } }` is replied as
internal-error by the escaped-quote guard. -/
theorem escapedQuote_guard_rejects_legitimate_witness :
    ∃ pos j, jsonStringify (polWith "a\"b" [("role", JSVal.str "admin")]) = some j ∧
      indexOfSubstr j escSeq = some pos ∧
      onSuccess (polWith "a\"b" [("role", JSVal.str "admin")]) =
        Except.ok (Response.badImplementation
          ("Invalid auth data at position " ++ toString pos ++ ". Data: " ++ j)) :=
  escapedQuote_guard_rejects_legitimate "a\"b" [("role", JSVal.str "admin")]
    (by decide) rfl (Or.inl (by decide))
